import Mathlib

/-!
Shallow embedding of the batching, upload bookkeeping and export path logic
of the cli-files-plugin repository (src/commands/file/import.ts and
src/commands/file/export.ts), together with theorems settling the frozen
claims about them.
-/

set_option maxHeartbeats 1000000
set_option maxRecDepth 100000

namespace FileOps

/-- A CSV row of the import manifest (src/commands/file/import.ts, type CSVRow).
Extra columns beyond the three fixed ones do not matter for the batching
claims, so only the fixed fields are carried. -/
structure CSVRow where
  VersionData : String
  Title : String
  PathOnClient : String
  deriving Repr, DecidableEq

/-- Constant MAX_SUBREQUESTS from import.ts line 15: the composite api can have
max 200 subrequests; the code reduces it by 10 to be safe. -/
def MAX_SUBREQUESTS : Nat := 190

/-- The mutable state of FileImport.createBatches (import.ts lines 101-104):
the closed batches, the batch under construction, its accumulated byte size
and its item count. -/
structure BatchState where
  batches : List (List CSVRow)
  currentBatch : List CSVRow
  currentBatchSize : Nat
  currentBatchFiles : Nat
  deriving Repr, DecidableEq

/-- One iteration of the loop body of createBatches (import.ts lines 112-122)
for a row whose size probe returned fileSize: when the row would push the
accumulated size over maxBatchSize, or the current batch already holds
MAX_SUBREQUESTS items, the current batch is closed (pushed, possibly empty)
and a fresh one is started; the row is then appended unconditionally. -/
def batchStep (maxBatchSize : Nat) (st : BatchState) (p : CSVRow × Nat) : BatchState :=
  if p.2 + st.currentBatchSize > maxBatchSize ∨ st.currentBatchFiles ≥ MAX_SUBREQUESTS then
    { batches := st.batches ++ [st.currentBatch]
      currentBatch := [p.1]
      currentBatchSize := p.2
      currentBatchFiles := 1 }
  else
    { st with
      currentBatch := st.currentBatch ++ [p.1]
      currentBatchSize := st.currentBatchSize + p.2
      currentBatchFiles := st.currentBatchFiles + 1 }

/-- The trailing-batch flush of createBatches (import.ts lines 129-131): the
final current batch is appended only when non-empty. -/
def finishBatches (st : BatchState) : List (List CSVRow) :=
  if st.currentBatch.length > 0 then st.batches ++ [st.currentBatch] else st.batches

/-- createBatches once every size probe has resolved: fold the loop body over
the rows paired with their probed sizes, then flush. -/
def buildBatches (pairs : List (CSVRow × Nat)) (maxBatchSize : Nat) : List (List CSVRow) :=
  finishBatches (pairs.foldl (batchStep maxBatchSize) ⟨[], [], 0, 0⟩)

/-- The size-probe phase of createBatches (import.ts lines 106-127): fs.stat is
issued for every row and the Promise.all rejects with the first failing probe,
wrapped in the message of line 124; otherwise every row is paired with its
probed size. The stat call is modelled as an explicit oracle from paths to
either an error message or a byte size. -/
def statAll (rows : List CSVRow) (stat : String → Except String Nat) :
    Except String (List (CSVRow × Nat)) :=
  match rows with
  | [] => Except.ok []
  | r :: rest =>
    match stat r.VersionData with
    | Except.error e =>
        Except.error ("Error processing file " ++ r.VersionData ++ ": " ++ e)
    | Except.ok n => (statAll rest stat).map (fun ps => (r, n) :: ps)

/-- FileImport.createBatches (import.ts lines 100-133). The rows are mapped to
async continuations that each await one fs.stat and then run the batching loop
body atomically; the continuations therefore execute in stat-completion order,
not necessarily in input order. The embedding takes the completion-ordered row
list as its argument; run-level theorems relate it to the original input list
by a permutation hypothesis. A failing probe rejects the whole call. -/
def createBatches (orderedRows : List CSVRow) (stat : String → Except String Nat)
    (maxBatchSize : Nat) : Except String (List (List CSVRow)) :=
  (statAll orderedRows stat).map (fun pairs => buildBatches pairs maxBatchSize)

/-- The byte size the probe reports for a row (zero is never used off the ok
path: every theorem that mentions it also requires the probe to succeed). -/
def rowSize (stat : String → Except String Nat) (r : CSVRow) : Nat :=
  match stat r.VersionData with
  | Except.ok n => n
  | Except.error _ => 0

/-- Cumulative probed byte size of a batch. -/
def sizeSum (sz : CSVRow → Nat) (b : List CSVRow) : Nat := (b.map sz).sum

/-- All rows held by a batching state, closed batches first. -/
def joinedRows (st : BatchState) : List CSVRow := st.batches.flatten ++ st.currentBatch

theorem joinedRows_batchStep (maxBatchSize : Nat) (st : BatchState) (p : CSVRow × Nat) :
    joinedRows (batchStep maxBatchSize st p) = joinedRows st ++ [p.1] := by
  unfold batchStep joinedRows
  split <;> simp

theorem joinedRows_foldl (maxBatchSize : Nat) (pairs : List (CSVRow × Nat)) (st : BatchState) :
    joinedRows (pairs.foldl (batchStep maxBatchSize) st) =
      joinedRows st ++ pairs.map Prod.fst := by
  induction pairs generalizing st with
  | nil => simp
  | cons p rest ih =>
      simp only [List.foldl_cons, List.map_cons, ih, joinedRows_batchStep]
      simp

theorem finishBatches_join (st : BatchState) :
    (finishBatches st).flatten = joinedRows st := by
  unfold finishBatches joinedRows
  split
  · simp
  · next h =>
      have : st.currentBatch = [] := by
        cases hcb : st.currentBatch with
        | nil => rfl
        | cons a l => rw [hcb] at h; simp at h
      simp [this]

theorem buildBatches_join (pairs : List (CSVRow × Nat)) (maxBatchSize : Nat) :
    (buildBatches pairs maxBatchSize).flatten = pairs.map Prod.fst := by
  unfold buildBatches
  rw [finishBatches_join, joinedRows_foldl]
  simp [joinedRows]

theorem statAll_ok_map_fst (rows : List CSVRow) (stat : String → Except String Nat)
    (pairs : List (CSVRow × Nat)) (h : statAll rows stat = Except.ok pairs) :
    pairs.map Prod.fst = rows := by
  induction rows generalizing pairs with
  | nil =>
      simp only [statAll] at h
      cases h
      rfl
  | cons r rest ih =>
      simp only [statAll] at h
      cases hs : stat r.VersionData with
      | error e => rw [hs] at h; cases h
      | ok n =>
          rw [hs] at h
          cases hrest : statAll rest stat with
          | error e => rw [hrest] at h; cases h
          | ok ps =>
              rw [hrest] at h
              simp only [Except.map] at h
              cases h
              simp [ih ps hrest]

theorem statAll_ok_sizes (rows : List CSVRow) (stat : String → Except String Nat)
    (pairs : List (CSVRow × Nat)) (h : statAll rows stat = Except.ok pairs) :
    ∀ p ∈ pairs, stat p.1.VersionData = Except.ok p.2 := by
  induction rows generalizing pairs with
  | nil =>
      simp only [statAll] at h
      cases h
      intro p hp
      simp at hp
  | cons r rest ih =>
      simp only [statAll] at h
      cases hs : stat r.VersionData with
      | error e => rw [hs] at h; cases h
      | ok n =>
          rw [hs] at h
          cases hrest : statAll rest stat with
          | error e => rw [hrest] at h; cases h
          | ok ps =>
              rw [hrest] at h
              simp only [Except.map] at h
              cases h
              intro p hp
              rcases List.mem_cons.mp hp with h1 | h2
              · subst h1; exact hs
              · exact ih ps hrest p h2

/-- The loop invariant of createBatches, stated against a size oracle sz:
every closed batch respects the byte ceiling or is a singleton and never
exceeds MAX_SUBREQUESTS items; the tracked size and count agree with the
current batch, which satisfies the same bounds. -/
structure BatchInv (sz : CSVRow → Nat) (maxBatchSize : Nat) (st : BatchState) : Prop where
  batches_ok : ∀ b ∈ st.batches, (sizeSum sz b ≤ maxBatchSize ∨ b.length = 1) ∧
    b.length ≤ MAX_SUBREQUESTS
  size_eq : st.currentBatchSize = sizeSum sz st.currentBatch
  files_eq : st.currentBatchFiles = st.currentBatch.length
  cur_ok : sizeSum sz st.currentBatch ≤ maxBatchSize ∨ st.currentBatch.length = 1
  cur_le : st.currentBatch.length ≤ MAX_SUBREQUESTS

theorem batchInv_step (sz : CSVRow → Nat) (maxBatchSize : Nat) (st : BatchState)
    (p : CSVRow × Nat) (hsz : p.2 = sz p.1) (hinv : BatchInv sz maxBatchSize st) :
    BatchInv sz maxBatchSize (batchStep maxBatchSize st p) := by
  unfold batchStep
  split
  · next hcond =>
      refine ⟨?_, ?_, ?_, ?_, ?_⟩
      · intro b hb
        rcases List.mem_append.mp hb with h1 | h2
        · exact hinv.batches_ok b h1
        · have hbc : b = st.currentBatch := by simpa using h2
          subst hbc
          exact ⟨hinv.cur_ok, hinv.cur_le⟩
      · simp [sizeSum, hsz]
      · simp
      · right; simp
      · simp [MAX_SUBREQUESTS]
  · next hcond =>
      push_neg at hcond
      refine ⟨hinv.batches_ok, ?_, ?_, ?_, ?_⟩
      · simp [sizeSum, hinv.size_eq, hsz]
      · simp [hinv.files_eq]
      · left
        have h1 : p.2 + st.currentBatchSize ≤ maxBatchSize := hcond.1
        have : sizeSum sz (st.currentBatch ++ [p.1]) = sizeSum sz st.currentBatch + sz p.1 := by
          simp [sizeSum]
        rw [this, ← hinv.size_eq, ← hsz]
        omega
      · have h2 : st.currentBatchFiles < MAX_SUBREQUESTS := hcond.2
        rw [hinv.files_eq] at h2
        simp only [List.length_append, List.length_cons, List.length_nil]
        omega

theorem batchInv_foldl (sz : CSVRow → Nat) (maxBatchSize : Nat)
    (pairs : List (CSVRow × Nat)) (st : BatchState)
    (hsz : ∀ p ∈ pairs, p.2 = sz p.1) (hinv : BatchInv sz maxBatchSize st) :
    BatchInv sz maxBatchSize (pairs.foldl (batchStep maxBatchSize) st) := by
  induction pairs generalizing st with
  | nil => exact hinv
  | cons p rest ih =>
      simp only [List.foldl_cons]
      exact ih _ (fun q hq => hsz q (List.mem_cons.mpr (Or.inr hq)))
        (batchInv_step sz maxBatchSize st p (hsz p (List.mem_cons_self p rest)) hinv)

theorem batchInv_start (sz : CSVRow → Nat) (maxBatchSize : Nat) :
    BatchInv sz maxBatchSize ⟨[], [], 0, 0⟩ := by
  refine ⟨?_, ?_, ?_, ?_, ?_⟩
  · intro b hb; simp at hb
  · simp [sizeSum]
  · simp
  · left; simp [sizeSum]
  · simp

theorem buildBatches_inv (sz : CSVRow → Nat) (maxBatchSize : Nat)
    (pairs : List (CSVRow × Nat)) (hsz : ∀ p ∈ pairs, p.2 = sz p.1) :
    ∀ b ∈ buildBatches pairs maxBatchSize,
      (sizeSum sz b ≤ maxBatchSize ∨ b.length = 1) ∧ b.length ≤ MAX_SUBREQUESTS := by
  have hinv := batchInv_foldl sz maxBatchSize pairs ⟨[], [], 0, 0⟩ hsz
    (batchInv_start sz maxBatchSize)
  intro b hb
  unfold buildBatches finishBatches at hb
  split at hb
  · rcases List.mem_append.mp hb with h1 | h2
    · exact hinv.batches_ok b h1
    · have hbc := List.mem_singleton.mp h2
      subst hbc
      exact ⟨hinv.cur_ok, hinv.cur_le⟩
  · exact hinv.batches_ok b hb

/-- A per-record result of the composite request (import.ts type Result; the
error payload is the CompositeError the code reads from errors[0]). -/
structure CompositeError where
  message : String
  statusCode : String
  fields : List String
  deriving Repr, DecidableEq

/-- Per-record response entry (import.ts type Result). -/
structure UploadResponseItem where
  succeeded : Bool
  id : String
  errors : List CompositeError
  deriving Repr, DecidableEq

/-- An entry of the import failure ledger (import.ts type UploadResult). -/
structure UploadResult where
  succeeded : Bool
  title : String
  versionData : String
  error : Option String
  statusText : Option String
  fields : Option String
  deriving Repr, DecidableEq

/-- What the code reads off a request-level (axios) failure: the message and
the optional response statusText of the transport error. -/
structure TransportError where
  message : String
  statusText : Option String
  deriving Repr, DecidableEq

/-- The aggregate returned by the import command (import.ts FileImportResult). -/
structure FileImportResult where
  total : Nat
  succeeded : Nat
  deriving Repr, DecidableEq

/-- How one response entry is turned into a ledger-or-success outcome for the
row at the same position (import.ts lines 288-303). A failed entry reads
errors[0]; the wire contract guarantees a failure carries at least one error,
and an absent one is modelled by the empty CompositeError. -/
def outcomeOf (row : CSVRow) (r : UploadResponseItem) : UploadResult :=
  if r.succeeded then
    { succeeded := true, title := row.Title, versionData := row.VersionData
      error := none, statusText := none, fields := none }
  else
    let compErr := r.errors.headD ⟨"", "", []⟩
    { succeeded := false, title := row.Title, versionData := row.VersionData
      error := some compErr.message, statusText := some compErr.statusCode
      fields := some (String.intercalate "|" compErr.fields) }

/-- FileImport.processBatch (import.ts lines 213-322), reduced to its result
bookkeeping: the remote call either yields a per-record response array aligned
positionally with the batch, or fails as a whole. It returns the per-batch
FileImportResult together with the entries pushed onto the errLog ledger.
The success count is the number of successful entries collected in results;
the total is always the batch item count. -/
def processBatch (batch : List CSVRow)
    (response : Except TransportError (List UploadResponseItem)) :
    FileImportResult × List UploadResult :=
  match response with
  | Except.ok data =>
      let outcomes := (data.zip batch).map (fun q => outcomeOf q.2 q.1)
      ({ total := batch.length
         succeeded := (outcomes.filter (fun o => o.succeeded)).length },
       outcomes.filter (fun o => !o.succeeded))
  | Except.error e =>
      ({ total := batch.length, succeeded := 0 },
       batch.map (fun row =>
         { succeeded := false, title := row.Title, versionData := row.VersionData
           error := some e.message, statusText := e.statusText, fields := none }))

/-- Array.prototype.reduce without an initial value, as used on the batch
results (import.ts lines 185-188): undefined on the empty list. -/
def reduceResults : List FileImportResult → Option FileImportResult
  | [] => none
  | r :: rs => some (rs.foldl
      (fun acc curr => { total := acc.total + curr.total
                         succeeded := acc.succeeded + curr.succeeded }) r)

/-- The run-level bookkeeping of FileImport.run (import.ts lines 182-194):
each batch is processed against its response, the per-batch results are
reduced, and the errLog ledger accumulates every pushed failure entry. The
concurrency limiter only interleaves ledger pushes of different batches, so
the ledger is modelled in batch order; the claims depend on its content and
length, not on the interleaving. -/
def runImport (batches : List (List CSVRow))
    (responses : List (Except TransportError (List UploadResponseItem))) :
    Option FileImportResult × List UploadResult :=
  let processed := (batches.zip responses).map (fun q => processBatch q.1 q.2)
  (reduceResults (processed.map Prod.fst), (processed.map Prod.snd).flatten)

theorem length_filter_partition {α : Type} (p : α → Bool) (l : List α) :
    (l.filter p).length + (l.filter (fun a => !p a)).length = l.length := by
  induction l with
  | nil => rfl
  | cons x xs ih =>
      cases hx : p x <;> simp [List.filter_cons, hx] <;> omega

theorem processBatch_identity (batch : List CSVRow)
    (response : Except TransportError (List UploadResponseItem))
    (halign : ∀ data, response = Except.ok data → data.length = batch.length) :
    (processBatch batch response).1.total =
      (processBatch batch response).1.succeeded + (processBatch batch response).2.length := by
  cases response with
  | error e => simp [processBatch]
  | ok data =>
      have hlen : data.length = batch.length := halign data rfl
      simp only [processBatch]
      have hzip : ((data.zip batch).map (fun q => outcomeOf q.2 q.1)).length = batch.length := by
        simp [hlen]
      have hpart := length_filter_partition (fun o => o.succeeded)
        ((data.zip batch).map (fun q => outcomeOf q.2 q.1))
      omega

theorem foldl_addResult (rs : List FileImportResult) (acc : FileImportResult) :
    rs.foldl (fun a c => { total := a.total + c.total, succeeded := a.succeeded + c.succeeded })
        acc =
      { total := acc.total + (rs.map (fun r => r.total)).sum
        succeeded := acc.succeeded + (rs.map (fun r => r.succeeded)).sum } := by
  induction rs generalizing acc with
  | nil => simp
  | cons x xs ih => simp [ih, Nat.add_assoc]

theorem reduceResults_sum (l : List FileImportResult) (hne : l ≠ []) :
    ∃ fr, reduceResults l = some fr ∧
      fr.total = (l.map (fun r => r.total)).sum ∧
      fr.succeeded = (l.map (fun r => r.succeeded)).sum := by
  cases l with
  | nil => exact absurd rfl hne
  | cons r rs =>
      refine ⟨_, rfl, ?_, ?_⟩ <;> simp [reduceResults, foldl_addResult]

theorem sum_map_add_nat {α : Type} (l : List α) (f g : α → Nat) :
    (l.map (fun a => f a + g a)).sum = (l.map f).sum + (l.map g).sum := by
  induction l with
  | nil => rfl
  | cons x xs ih => simp [ih]; omega

/-- Concrete rows and oracles used by witnesses and counterexamples. -/
def wRow1 : CSVRow := ⟨"/tmp/a.bin", "A", "a.bin"⟩

def wRow2 : CSVRow := ⟨"/tmp/b.bin", "B", "b.bin"⟩

def statOne : String → Except String Nat := fun _ => Except.ok 1

def statFifty : String → Except String Nat := fun _ => Except.ok 50

/-- C1: for every input list of import records whose binaries can all be
stat-ed, the batches returned by createBatches partition the input: the item
counts sum to the input length, and the concatenation of the batches holds
exactly the input records, none dropped and none duplicated (a permutation,
since the records are appended in stat-completion order). -/
theorem batcher_partitions_input (rows orderedRows : List CSVRow)
    (stat : String → Except String Nat) (maxBatchSize : Nat)
    (batches : List (List CSVRow))
    (hperm : orderedRows.Perm rows)
    (hok : createBatches orderedRows stat maxBatchSize = Except.ok batches) :
    (batches.map List.length).sum = rows.length ∧ batches.flatten.Perm rows := by
  unfold createBatches at hok
  cases hst : statAll orderedRows stat with
  | error e => rw [hst] at hok; cases hok
  | ok pairs =>
      rw [hst] at hok
      simp only [Except.map] at hok
      cases hok
      have hjoin : (buildBatches pairs maxBatchSize).flatten = orderedRows := by
        rw [buildBatches_join]
        exact statAll_ok_map_fst _ _ _ hst
      constructor
      · calc ((buildBatches pairs maxBatchSize).map List.length).sum
            = (buildBatches pairs maxBatchSize).flatten.length := by
              simp [List.length_flatten]
          _ = orderedRows.length := by rw [hjoin]
          _ = rows.length := hperm.length_eq
      · rw [hjoin]; exact hperm

/-- Witness for C1 at a concrete two-row input. -/
theorem batcher_partitions_input_witness :
    (([[wRow1, wRow2]] : List (List CSVRow)).map List.length).sum =
      ([wRow1, wRow2] : List CSVRow).length ∧
    ([[wRow1, wRow2]] : List (List CSVRow)).flatten.Perm [wRow1, wRow2] :=
  batcher_partitions_input [wRow1, wRow2] [wRow1, wRow2] statOne 1000 [[wRow1, wRow2]]
    (List.Perm.refl _) rfl

/-- C2: every batch returned by createBatches either keeps its cumulative
probed byte size within maxBatchSize or holds exactly one record; an oversized
record is placed alone rather than rejected. -/
theorem batch_bytes_bounded (orderedRows : List CSVRow)
    (stat : String → Except String Nat) (maxBatchSize : Nat)
    (batches : List (List CSVRow)) (b : List CSVRow)
    (hok : createBatches orderedRows stat maxBatchSize = Except.ok batches)
    (hb : b ∈ batches) :
    sizeSum (rowSize stat) b ≤ maxBatchSize ∨ b.length = 1 := by
  unfold createBatches at hok
  cases hst : statAll orderedRows stat with
  | error e => rw [hst] at hok; cases hok
  | ok pairs =>
      rw [hst] at hok
      simp only [Except.map] at hok
      cases hok
      have hsz : ∀ p ∈ pairs, p.2 = rowSize stat p.1 := by
        intro p hp
        have := statAll_ok_sizes _ _ _ hst p hp
        simp [rowSize, this]
      exact (buildBatches_inv (rowSize stat) maxBatchSize pairs hsz b hb).1

/-- Witness for C2: a single 50-byte record against a 10-byte ceiling is kept,
alone, in its dedicated batch. -/
theorem batch_bytes_bounded_witness :
    sizeSum (rowSize statFifty) [wRow1] ≤ 10 ∨ ([wRow1] : List CSVRow).length = 1 :=
  batch_bytes_bounded [wRow1] statFifty 10 [[], [wRow1]] [wRow1] rfl (by decide)

/-- C3: every batch returned by createBatches holds at most MAX_SUBREQUESTS
(190) items, and 200 records whose sizes never trip the byte ceiling yield
exactly two batches of 190 and 10 items. -/
theorem batch_items_bounded :
    (∀ (orderedRows : List CSVRow) (stat : String → Except String Nat)
        (maxBatchSize : Nat) (batches : List (List CSVRow)) (b : List CSVRow),
        createBatches orderedRows stat maxBatchSize = Except.ok batches →
        b ∈ batches → b.length ≤ MAX_SUBREQUESTS) ∧
    Except.map (fun bs => bs.map List.length)
        (createBatches (List.replicate 200 wRow1) statOne 1000000) =
      Except.ok [MAX_SUBREQUESTS, 10] := by
  constructor
  · intro orderedRows stat maxBatchSize batches b hok hb
    unfold createBatches at hok
    cases hst : statAll orderedRows stat with
    | error e => rw [hst] at hok; cases hok
    | ok pairs =>
        rw [hst] at hok
        simp only [Except.map] at hok
        cases hok
        have hsz : ∀ p ∈ pairs, p.2 = rowSize stat p.1 := by
          intro p hp
          have := statAll_ok_sizes _ _ _ hst p hp
          simp [rowSize, this]
        exact (buildBatches_inv (rowSize stat) maxBatchSize pairs hsz b hb).2
  · rfl

/-- Witness for C3 at a concrete input. -/
theorem batch_items_bounded_witness : ([wRow1] : List CSVRow).length ≤ MAX_SUBREQUESTS :=
  batch_items_bounded.1 [wRow1] statOne 1000 [[wRow1]] [wRow1] rfl (by decide)

/-- C5: a request-level failure degrades every record of the batch into a
failure-ledger entry carrying the transport error message and status; the
batch reports 0 successes and its total stays the item count. -/
theorem transport_failure_degrades_batch (batch : List CSVRow) (e : TransportError) :
    (processBatch batch (Except.error e)).1.total = batch.length ∧
    (processBatch batch (Except.error e)).1.succeeded = 0 ∧
    (processBatch batch (Except.error e)).2.length = batch.length ∧
    (processBatch batch (Except.error e)).2 =
      batch.map (fun row =>
        { succeeded := false, title := row.Title, versionData := row.VersionData
          error := some e.message, statusText := e.statusText, fields := none }) := by
  refine ⟨rfl, rfl, ?_, rfl⟩
  simp [processBatch]

/-- C4: across a whole import run with at least one batch, where every
per-record response array is positionally aligned with its batch, the reduced
aggregate satisfies total = succeeded + length of the errLog ledger. -/
theorem run_total_eq_succeeded_plus_failures
    (batches : List (List CSVRow))
    (responses : List (Except TransportError (List UploadResponseItem)))
    (hne : batches ≠ []) (hlen : responses.length = batches.length)
    (halign : ∀ q ∈ batches.zip responses,
        ∀ data, q.2 = Except.ok data → data.length = q.1.length) :
    ∃ fr, (runImport batches responses).1 = some fr ∧
      fr.total = fr.succeeded + (runImport batches responses).2.length := by
  unfold runImport
  have hzlen : (batches.zip responses).length = batches.length := by
    rw [List.length_zip, hlen, Nat.min_self]
  have hzne : (batches.zip responses).map (fun q => processBatch q.1 q.2) ≠ [] := by
    intro hcon
    have : batches.length = 0 := by
      have := congrArg List.length hcon
      simpa [hzlen] using this
    exact hne (List.length_eq_zero.mp this)
  obtain ⟨fr, hfr, htot, hsucc⟩ := reduceResults_sum
    ((((batches.zip responses).map (fun q => processBatch q.1 q.2)).map Prod.fst)) (by
      intro hcon
      exact hzne (List.map_eq_nil_iff.mp hcon))
  refine ⟨fr, hfr, ?_⟩
  have hpoint : ∀ q ∈ batches.zip responses,
      (processBatch q.1 q.2).1.total =
        (processBatch q.1 q.2).1.succeeded + (processBatch q.1 q.2).2.length := by
    intro q hq
    exact processBatch_identity q.1 q.2 (fun data hd => halign q hq data hd)
  have hmapeq :
      (batches.zip responses).map (fun q => (processBatch q.1 q.2).1.total) =
        (batches.zip responses).map
          (fun q => (processBatch q.1 q.2).1.succeeded + (processBatch q.1 q.2).2.length) :=
    List.map_congr_left hpoint
  have herr :
      ((((batches.zip responses).map (fun q => processBatch q.1 q.2)).map
        Prod.snd).flatten).length =
        ((batches.zip responses).map (fun q => (processBatch q.1 q.2).2.length)).sum := by
    simp [List.length_flatten, List.map_map, Function.comp_def]
  have htot2 : fr.total =
      ((batches.zip responses).map (fun q => (processBatch q.1 q.2).1.total)).sum := by
    rw [htot]; simp [List.map_map, Function.comp_def]
  have hsucc2 : fr.succeeded =
      ((batches.zip responses).map (fun q => (processBatch q.1 q.2).1.succeeded)).sum := by
    rw [hsucc]; simp [List.map_map, Function.comp_def]
  rw [htot2, hsucc2, herr, hmapeq, sum_map_add_nat]

/-- Concrete scenario for the C4 witness: one 2-item batch whose response has
one success and one failure with message bad. -/
def wBatchC : List CSVRow := [wRow1, wRow2]

def wRespC : Except TransportError (List UploadResponseItem) :=
  Except.ok [⟨true, "1", []⟩, ⟨false, "", [⟨"bad", "400", []⟩]⟩]

/-- Witness for C4: the two-item batch of scenario C yields total 2,
1 success, and a single ledger entry carrying the message bad. -/
theorem run_total_witness :
    (∃ fr, (runImport [wBatchC] [wRespC]).1 = some fr ∧
        fr.total = fr.succeeded + (runImport [wBatchC] [wRespC]).2.length) ∧
    (runImport [wBatchC] [wRespC]).1 = some ⟨2, 1⟩ ∧
    (runImport [wBatchC] [wRespC]).2.map (fun u => u.error) = [some "bad"] := by
  refine ⟨?_, rfl, rfl⟩
  refine run_total_eq_succeeded_plus_failures [wBatchC] [wRespC] (by decide) rfl ?_
  intro q hq data hd
  have hq2 : q = (wBatchC, wRespC) := by simpa using hq
  subst hq2
  have hdd : data = [⟨true, "1", []⟩, ⟨false, "", [⟨"bad", "400", []⟩]⟩] := by
    have := hd.symm.trans rfl
    simpa [wRespC] using hd.symm
  subst hdd
  rfl

/-- An export manifest row (src/commands/file/export.ts): a mapping from
column names to string values, kept as an association list; a lookup miss
models an undefined column. -/
abbrev Row : Type := List (String × String)

/-- Column lookup on a row, first match wins (a JavaScript property read). -/
def rowGet (row : Row) (k : String) : Option String :=
  (row.find? (fun kv => kv.1 = k)).map (fun kv => kv.2)

/-- A crude stand-in for JSON.stringify on a row, used only inside an error
message whose exact text no claim inspects. -/
def rowText (row : Row) : String :=
  String.intercalate "," (row.map (fun kv => kv.1 ++ ":" ++ kv.2))

/-- What logError reads off a download failure (export.ts lines 207-217): the
optional response status and statusText, and the optional request url of an
axios error. -/
structure DownloadError where
  status : Option Nat
  statusText : Option String
  url : Option String
  deriving Repr, DecidableEq

/-- The two ways FileExport.processRow can fail: the missing-identifier throw
of line 241, or a failed download request. Sink write failures surface the
same way as download failures and are not distinguished here. -/
inductive RowFailure where
  | missingId (text : String)
  | download (e : DownloadError)
  deriving Repr, DecidableEq

/-- An entry of the export failure ledger (export.ts type CSVError). -/
structure CSVError where
  status : String
  statusText : String
  url : String
  id : Option String
  message : String
  details : String
  deriving Repr, DecidableEq

/-- The aggregate returned by the export command (export.ts FileExportResult). -/
structure FileExportResult where
  successCount : Nat
  failureCount : Nat
  errorLogPath : Option String
  deriving Repr, DecidableEq

/-- The JavaScript test ext.includes with a dot argument. -/
def jsIncludesDot (s : String) : Bool := s.data.contains '.'

/-- The JavaScript expression ext.split with a dot followed by pop: the last
segment of the dot-split, which is exactly the substring after the last dot
(and the whole string when no dot occurs). -/
def jsAfterLastDot (s : String) : String :=
  ⟨(s.data.reverse.takeWhile (fun c => c ≠ '.')).reverse⟩

/-- The destination file name computed by FileExport.processRow (export.ts
lines 244-263): the extension hint, when present and containing a dot, is cut
down to the substring after its last dot; a non-empty remainder is appended to
the identifier after a dot, otherwise the identifier alone is used. -/
def destFileName (contentVersionId : String) (extHint : Option String) : String :=
  let ext0 := extHint.getD ""
  let ext := if ext0 ≠ "" ∧ jsIncludesDot ext0 then jsAfterLastDot ext0 else ext0
  if ext ≠ "" then contentVersionId ++ "." ++ ext else contentVersionId

/-- path.join of the output directory and the file name, modelled as plain
separator concatenation. -/
def joinPath (dir fileName : String) : String := dir ++ "/" ++ fileName

/-- FileExport.processRow (export.ts lines 237-292), reduced to its
control-flow outcome: a falsy (missing or empty) identifier column throws; an
extension hint is read only when an extension column name was configured; the
download is an oracle from the identifier to success or a DownloadError; on
success the destination path is returned. -/
def processRow (idField extColName outputDir : String)
    (dl : String → Except DownloadError Unit) (row : Row) :
    Except RowFailure String :=
  let contentVersionId := (rowGet row idField).getD ""
  if contentVersionId = "" then
    Except.error (RowFailure.missingId ("Missing ContentVersion ID in row: " ++ rowText row))
  else
    let extHint : Option String := if extColName = "" then some "" else rowGet row extColName
    match dl contentVersionId with
    | Except.error e => Except.error (RowFailure.download e)
    | Except.ok _ => Except.ok (joinPath outputDir (destFileName contentVersionId extHint))

/-- FileExport.logError (export.ts lines 197-221) applied to a row failure:
the ledger entry carries the raw identifier column, a message that falls back
to the word unknown for a falsy identifier, and either the axios response
fields or the thrown message as details. An absent axios response status
stringifies to the word undefined because the nullish fallback binds after
the string coercion. -/
def logErrorEntry (idField : String) (row : Row) (f : RowFailure) : CSVError :=
  let idVal := rowGet row idField
  let shown := match idVal with
    | some s => if s = "" then "unknown" else s
    | none => "unknown"
  let msg := "Error processing row with ID " ++ shown
  match f with
  | RowFailure.missingId text =>
      { status := "unknown", statusText := "unknown", url := "unknown"
        id := idVal, message := msg, details := text }
  | RowFailure.download e =>
      { status := match e.status with
          | some n => toString n
          | none => "undefined"
        statusText := e.statusText.getD "unknown"
        url := e.url.getD "unknown"
        id := idVal, message := msg, details := "unknown" }

/-- The per-run mutable state of FileExport.run: the two counters and the
error ledger. -/
structure ExportState where
  successCount : Nat
  failureCount : Nat
  errorLog : List CSVError
  deriving Repr, DecidableEq

/-- One row task of FileExport.run (export.ts lines 136-152): a successful
processRow bumps successCount, a failure bumps failureCount and logs. -/
def exportStep (idField extColName outputDir : String)
    (dl : String → Except DownloadError Unit) (st : ExportState) (row : Row) : ExportState :=
  match processRow idField extColName outputDir dl row with
  | Except.ok _ => { st with successCount := st.successCount + 1 }
  | Except.error f =>
      { st with
        failureCount := st.failureCount + 1
        errorLog := st.errorLog ++ [logErrorEntry idField row f] }

/-- The error-ledger csv name of writeFailuresToCsv (export.ts line 225),
parametrised by the Date.now() timestamp. -/
def errorsCsvFileName (t : Nat) : String := "errors" ++ toString t ++ ".csv"

/-- path.resolve of a flag value against the working directory, keeping an
absolute value and prefixing the working directory otherwise (dot-segment
normalization is irrelevant to the flag values involved). -/
def resolvePath (cwd p : String) : String :=
  if p.data.head? = some '/' then p else cwd ++ "/" ++ p

/-- FileExport.run (export.ts lines 105-195), reduced to its bookkeeping: an
empty manifest short-circuits to a zero result without writing anything; else
every row task runs to completion (the limiter only interleaves them, so the
ledger is modelled in row order), the ledger is written to the
errors-timestamp csv when non-empty, and errorLogPath reports the resolved
error-log flag only when failures occurred. The returned triple is the
command result, the ledger, and the names of the files the failure ledger was
written to. -/
def runExport (rows : List Row) (idField extColName outputDir : String)
    (dl : String → Except DownloadError Unit) (errLogFlag cwd : String) (t : Nat) :
    FileExportResult × List CSVError × List String :=
  if rows.length = 0 then
    ({ successCount := 0, failureCount := 0, errorLogPath := none }, [], [])
  else
    let final := rows.foldl (exportStep idField extColName outputDir dl) ⟨0, 0, []⟩
    ({ successCount := final.successCount
       failureCount := final.failureCount
       errorLogPath := if final.failureCount > 0 then some (resolvePath cwd errLogFlag)
         else none },
     final.errorLog,
     if final.errorLog.length > 0 then [errorsCsvFileName t] else [])

/-- C6 counterexample: the hint report. is non-empty and contains a dot, and
the substring after its last dot is empty; the claimed name 123. is not what
the code produces, which is the bare identifier 123. -/
theorem dest_file_name_counterexample :
    destFileName "123" (some "report.") = "123" ∧
    destFileName "123" (some "report.") ≠
      "123" ++ "." ++ jsAfterLastDot "report." := by
  constructor
  · decide
  · decide

/-- C6 amended: for a row with identifier id and non-empty extension hint, the
destination file name is id dot ext, where ext is the substring after the last
dot of the hint when the hint contains a dot and the hint itself otherwise,
provided that ext is non-empty; a hint ending in its last dot instead yields
the bare identifier. -/
theorem dest_file_name_amended (id hint ext : String)
    (hne : hint ≠ "")
    (hext : ext = if jsIncludesDot hint then jsAfterLastDot hint else hint)
    (hextne : ext ≠ "") :
    destFileName id (some hint) = id ++ "." ++ ext := by
  subst hext
  by_cases hc : jsIncludesDot hint
  · have h1 : jsAfterLastDot hint ≠ "" := by simpa [hc] using hextne
    simp [destFileName, hne, hc, h1]
  · simp [destFileName, hne, hc]

/-- Witness for C6 amended: scenario D. -/
theorem dest_file_name_amended_witness : destFileName "123" (some "report.pdf") = "123.pdf" := by
  have h := dest_file_name_amended "123" "report.pdf" "pdf" (by decide) (by decide) (by decide)
  exact h.trans (by decide)

/-- C7 counterexample: two distinct rows whose size probes complete in reverse
order are appended in that completion order, so the concatenated batches are
not the input order. -/
theorem batch_order_counterexample :
    ([wRow2, wRow1] : List CSVRow).Perm [wRow1, wRow2] ∧
    createBatches [wRow2, wRow1] statOne 1000 = Except.ok [[wRow2, wRow1]] ∧
    ([[wRow2, wRow1]] : List (List CSVRow)).flatten ≠ [wRow1, wRow2] := by
  refine ⟨by decide, rfl, by decide⟩

/-- C7 amended: the concatenation of the returned batches (in order) is the
sequence of records in size-probe completion order, hence a permutation of the
input; when the probes complete in input order it is exactly the input. -/
theorem batch_order_amended (rows orderedRows : List CSVRow)
    (stat : String → Except String Nat) (maxBatchSize : Nat)
    (batches : List (List CSVRow))
    (hperm : orderedRows.Perm rows)
    (hok : createBatches orderedRows stat maxBatchSize = Except.ok batches) :
    batches.flatten.Perm rows ∧ (orderedRows = rows → batches.flatten = rows) := by
  unfold createBatches at hok
  cases hst : statAll orderedRows stat with
  | error e => rw [hst] at hok; cases hok
  | ok pairs =>
      rw [hst] at hok
      simp only [Except.map] at hok
      cases hok
      have hflat : (buildBatches pairs maxBatchSize).flatten = orderedRows := by
        rw [buildBatches_join]
        exact statAll_ok_map_fst _ _ _ hst
      exact ⟨hflat ▸ hperm, fun h => hflat.trans h⟩

/-- Witness for C7 amended at an in-order completion. -/
theorem batch_order_amended_witness :
    ([[wRow1, wRow2]] : List (List CSVRow)).flatten.Perm [wRow1, wRow2] ∧
    ([wRow1, wRow2] = ([wRow1, wRow2] : List CSVRow) →
      ([[wRow1, wRow2]] : List (List CSVRow)).flatten = [wRow1, wRow2]) :=
  batch_order_amended [wRow1, wRow2] [wRow1, wRow2] statOne 1000 [[wRow1, wRow2]]
    (List.Perm.refl _) rfl

/-- C9: a first record whose probed size alone exceeds the byte ceiling makes
createBatches push the still-empty current batch before starting the dedicated
singleton, so the returned list contains an empty batch. -/
theorem empty_batch_emitted :
    createBatches [wRow1] statFifty 10 = Except.ok [[], [wRow1]] ∧
    ∃ bs, createBatches [wRow1] statFifty 10 = Except.ok bs ∧
      ([] : List CSVRow) ∈ bs ∧ [wRow1] ∈ bs :=
  ⟨rfl, [[], [wRow1]], rfl, by decide, by decide⟩

theorem exceptMap_isOk {ε α β : Type} (e : Except ε α) (f : α → β) :
    (e.map f).isOk = e.isOk := by
  cases e <;> rfl

theorem statAll_error_of_mem (rows : List CSVRow) (stat : String → Except String Nat)
    (r : CSVRow) (hr : r ∈ rows) (hfail : (stat r.VersionData).isOk = false) :
    (statAll rows stat).isOk = false := by
  induction rows with
  | nil => simp at hr
  | cons x xs ih =>
      simp only [statAll]
      cases hx : stat x.VersionData with
      | error e => rfl
      | ok n =>
          rcases List.mem_cons.mp hr with h1 | h2
          · subst h1
            rw [hx] at hfail
            simp [Except.isOk, Except.toBool] at hfail
          · have hxs := ih h2
            rw [exceptMap_isOk]
            exact hxs

theorem exportFold_counts (idField extColName outputDir : String)
    (dl : String → Except DownloadError Unit) (rows : List Row) (st : ExportState) :
    (rows.foldl (exportStep idField extColName outputDir dl) st).successCount +
        (rows.foldl (exportStep idField extColName outputDir dl) st).failureCount =
      st.successCount + st.failureCount + rows.length ∧
    (rows.foldl (exportStep idField extColName outputDir dl) st).errorLog.length +
        st.failureCount =
      (rows.foldl (exportStep idField extColName outputDir dl) st).failureCount +
        st.errorLog.length := by
  induction rows generalizing st with
  | nil =>
      simp only [List.foldl_nil, List.length_nil]
      constructor <;> omega
  | cons row rest ih =>
      simp only [List.foldl_cons, List.length_cons]
      obtain ⟨ha, hb⟩ := ih (exportStep idField extColName outputDir dl st row)
      cases hpr : processRow idField extColName outputDir dl row with
      | ok v =>
          simp only [exportStep, hpr] at ha hb ⊢
          constructor <;> omega
      | error f =>
          simp only [exportStep, hpr] at ha hb ⊢
          simp only [List.length_append, List.length_cons, List.length_nil] at ha hb ⊢
          constructor <;> omega

theorem exportFold_log_mono (idField extColName outputDir : String)
    (dl : String → Except DownloadError Unit) (rows : List Row) (st : ExportState)
    (entry : CSVError) (h : entry ∈ st.errorLog) :
    entry ∈ (rows.foldl (exportStep idField extColName outputDir dl) st).errorLog := by
  induction rows generalizing st with
  | nil => exact h
  | cons row rest ih =>
      simp only [List.foldl_cons]
      apply ih
      cases hpr : processRow idField extColName outputDir dl row with
      | ok v => simpa [exportStep, hpr] using h
      | error f =>
          simp only [exportStep, hpr]
          exact List.mem_append.mpr (Or.inl h)

/-- A stat oracle behaving like fs.stat on the file system: it rejects the
empty path with ENOENT and reports 5 bytes for every real path. -/
def statReal : String → Except String Nat := fun p =>
  if p = "" then Except.error "ENOENT: no such file or directory, stat" else Except.ok 5

/-- C8 counterexample: an import row whose binary-path column is empty makes
its size probe fail, and createBatches rejects the whole run with the probe
error rather than recording a row-level failure and batching the remaining
valid row: no batch list at all is produced. -/
theorem empty_path_fatal_counterexample :
    createBatches [⟨"", "T0", "p0"⟩, wRow1] statReal 1000 =
      Except.error ("Error processing file : " ++ "ENOENT: no such file or directory, stat") ∧
    (createBatches [⟨"", "T0", "p0"⟩, wRow1] statReal 1000).isOk = false :=
  ⟨rfl, rfl⟩

/-- C8 amended: on the export side a missing or empty identifier column is a
row-level failure, the run still processes every row (successes and failures
account for the whole manifest) and the ledger receives an entry carrying the
identifier column of the offending row; on the import side, by contrast, a row
whose binary path cannot be stat-ed (in particular an empty path) aborts the
whole batching step, so the failure is fatal rather than row-level. -/
theorem empty_field_handling (idField extColName outputDir : String)
    (dl : String → Except DownloadError Unit)
    (pre post : List Row) (row : Row)
    (hid : (rowGet row idField).getD "" = "")
    (errLogFlag cwd : String) (t : Nat) :
    (∀ rows : List Row,
      (runExport rows idField extColName outputDir dl errLogFlag cwd t).1.successCount +
        (runExport rows idField extColName outputDir dl errLogFlag cwd t).1.failureCount =
        rows.length) ∧
    (∃ entry ∈ (runExport (pre ++ row :: post) idField extColName outputDir dl
        errLogFlag cwd t).2.1, entry.id = rowGet row idField) ∧
    (∀ (orderedRows : List CSVRow) (stat : String → Except String Nat)
        (maxBatchSize : Nat) (r : CSVRow), r ∈ orderedRows →
        (stat r.VersionData).isOk = false →
        (createBatches orderedRows stat maxBatchSize).isOk = false) := by
  refine ⟨?_, ?_, ?_⟩
  · intro rows
    unfold runExport
    by_cases hz : rows.length = 0
    · rw [if_pos hz]
      simpa using hz.symm
    · rw [if_neg hz]
      have h := (exportFold_counts idField extColName outputDir dl rows ⟨0, 0, []⟩).1
      simpa using h
  · have hpr : processRow idField extColName outputDir dl row =
        Except.error (RowFailure.missingId
          ("Missing ContentVersion ID in row: " ++ rowText row)) := by
      simp [processRow, hid]
    have hz : (pre ++ row :: post).length ≠ 0 := by simp
    unfold runExport
    rw [if_neg hz]
    refine ⟨logErrorEntry idField row (RowFailure.missingId
      ("Missing ContentVersion ID in row: " ++ rowText row)), ?_, ?_⟩
    · show _ ∈ ((pre ++ row :: post).foldl
        (exportStep idField extColName outputDir dl) ⟨0, 0, []⟩).errorLog
      rw [List.foldl_append, List.foldl_cons]
      apply exportFold_log_mono
      simp only [exportStep, hpr]
      exact List.mem_append.mpr (Or.inr (List.mem_singleton.mpr rfl))
    · rfl
  · intro orderedRows stat maxBatchSize r hr hfail
    unfold createBatches
    rw [exceptMap_isOk]
    exact statAll_error_of_mem orderedRows stat r hr hfail

/-- Concrete rows and oracles for the C8 and C10 witnesses. -/
def badExportRow : Row := [("Id", "")]

def goodExportRow : Row := [("Id", "7")]

def dlOk : String → Except DownloadError Unit := fun _ => Except.ok ()

def dlFail : String → Except DownloadError Unit := fun _ =>
  Except.error ⟨none, none, none⟩

/-- Witness for C8 amended at concrete inputs: a manifest of one empty-id row
and one good row is fully processed with the failure ledgered, while a
one-row import whose path is empty aborts batching. -/
theorem empty_field_handling_witness :
    ((runExport [badExportRow, goodExportRow] "Id" "" "out" dlOk "file-export-errors.log"
        "/work" 5).1.successCount +
      (runExport [badExportRow, goodExportRow] "Id" "" "out" dlOk "file-export-errors.log"
        "/work" 5).1.failureCount =
      ([badExportRow, goodExportRow] : List Row).length) ∧
    (∃ entry ∈ (runExport ([] ++ badExportRow :: [goodExportRow]) "Id" "" "out" dlOk
        "file-export-errors.log" "/work" 5).2.1, entry.id = rowGet badExportRow "Id") ∧
    (createBatches [⟨"", "T0", "p0"⟩] statReal 1000).isOk = false := by
  have h := empty_field_handling "Id" "" "out" dlOk [] [goodExportRow] badExportRow rfl
    "file-export-errors.log" "/work" 5
  exact ⟨h.1 [badExportRow, goodExportRow], h.2.1,
    h.2.2 [⟨"", "T0", "p0"⟩] statReal 1000 ⟨"", "T0", "p0"⟩ (by decide) rfl⟩

/-- The errors-timestamp csv name can never equal the resolved default
error-log flag: the former ends in csv, the latter in log. -/
theorem errorsCsv_ne_resolved (cwd : String) (t : Nat) :
    errorsCsvFileName t ≠ resolvePath cwd "file-export-errors.log" := by
  unfold errorsCsvFileName resolvePath
  rw [if_neg (by decide : ¬ ("file-export-errors.log".data.head? = some (Char.ofNat 47)))]
  intro h
  have hd := congrArg String.data h
  simp only [String.data_append] at hd
  have hlast := congrArg List.getLast? hd
  simp only [List.getLast?_append] at hlast
  have h1 : ".csv".data.getLast? = some (Char.ofNat 118) := rfl
  have h2 : "file-export-errors.log".data.getLast? = some (Char.ofNat 103) := rfl
  rw [h1, h2] at hlast
  simp only [Option.or] at hlast
  exact absurd hlast (by decide)

/-- C10: whenever an export run under the default error-log flag ends with
failures, the result reports the resolved flag path as errorLogPath, while the
failure ledger is written to the errors-timestamp csv, whose name never equals
the reported path: no data is written to the path the result reports. -/
theorem error_log_path_mismatch (rows : List Row)
    (idField extColName outputDir : String)
    (dl : String → Except DownloadError Unit) (cwd : String) (t : Nat)
    (hfail : 0 < (runExport rows idField extColName outputDir dl
      "file-export-errors.log" cwd t).1.failureCount) :
    (runExport rows idField extColName outputDir dl
        "file-export-errors.log" cwd t).1.errorLogPath =
      some (resolvePath cwd "file-export-errors.log") ∧
    (runExport rows idField extColName outputDir dl
        "file-export-errors.log" cwd t).2.2 = [errorsCsvFileName t] ∧
    resolvePath cwd "file-export-errors.log" ∉
      (runExport rows idField extColName outputDir dl
        "file-export-errors.log" cwd t).2.2 := by
  by_cases hz : rows.length = 0
  · exfalso
    unfold runExport at hfail
    rw [if_pos hz] at hfail
    simp at hfail
  · unfold runExport at hfail ⊢
    rw [if_neg hz] at hfail ⊢
    have hcnt := (exportFold_counts idField extColName outputDir dl rows ⟨0, 0, []⟩).2
    simp only at hfail
    have hlog : 0 < (rows.foldl (exportStep idField extColName outputDir dl)
        ⟨0, 0, []⟩).errorLog.length := by
      simp only [List.length_nil] at hcnt
      omega
    refine ⟨?_, ?_, ?_⟩
    · simp only [if_pos hfail]
    · simp only [if_pos hlog]
    · simp only [if_pos hlog]
      intro hmem
      exact errorsCsv_ne_resolved cwd t (List.mem_singleton.mp hmem).symm

/-- Witness for C10: a one-row export whose download fails reports the
resolved default flag path yet writes the ledger to the timestamped csv. -/
theorem error_log_path_mismatch_witness :
    (runExport [goodExportRow] "Id" "" "out" dlFail
        "file-export-errors.log" "/work" 42).1.errorLogPath =
      some (resolvePath "/work" "file-export-errors.log") ∧
    (runExport [goodExportRow] "Id" "" "out" dlFail
        "file-export-errors.log" "/work" 42).2.2 = [errorsCsvFileName 42] ∧
    resolvePath "/work" "file-export-errors.log" ∉
      (runExport [goodExportRow] "Id" "" "out" dlFail
        "file-export-errors.log" "/work" 42).2.2 :=
  error_log_path_mismatch [goodExportRow] "Id" "" "out" dlFail "/work" 42 (by decide)

end FileOps
